import Mathlib

/-!
Verification development for the toolpath visualizer of ocp-freecad-cam
(`src/ocp_freecad_cam/visualizer.py`).

Shallow embedding conventions:
* Coordinates are rationals (`ℚ`), standing in for Python floats; all the
  arithmetic the visualizer performs (+, -, *, / 2, squaring) is exact on the
  inputs the claims use, so ℚ is a faithful carrier.
* Python `None` / missing dict keys are `Option`; fallible code returns
  `Except String`.
* OCCT geometric objects are represented by the data the visualizer computes
  for them: a `gp_Dir` is kept as the (unnormalized) vector handed to its
  constructor, together with the constructor's documented failure on a
  null-magnitude vector ("gp_Dir raises Standard_ConstructionError if the
  modulus of V is lower or equal to Resolution from gp").
* `math.sqrt(e)` for a radius is represented by carrying the radicand
  `radiusSq = e`; the real radius is `Real.sqrt radiusSq`.
-/

/-- A 3D point (`gp_Pnt`). -/
structure Pt3 where
  x : ℚ
  y : ℚ
  z : ℚ
deriving DecidableEq, Repr

/-- A 3D vector (`gp_Vec`). -/
structure Vec3 where
  x : ℚ
  y : ℚ
  z : ℚ
deriving DecidableEq, Repr

/-- `gp_Vec.Crossed`. -/
def cross (a b : Vec3) : Vec3 :=
  ⟨a.y * b.z - a.z * b.y, a.z * b.x - a.x * b.z, a.x * b.y - a.y * b.x⟩

/-- Vector negation: `gp_Dir(-v.X(), -v.Y(), -v.Z())` in `CCWArcVisualCommand`. -/
def negV (v : Vec3) : Vec3 := ⟨-v.x, -v.y, -v.z⟩

/-- Squared distance between two points; `p.IsEqual(q, tol)` in OCCT holds iff
`Distance(p, q) ≤ tol`, i.e. iff `distSq p q ≤ tol ^ 2`. -/
def distSq (p q : Pt3) : ℚ :=
  (p.x - q.x) ^ 2 + (p.y - q.y) ^ 2 + (p.z - q.z) ^ 2

/-- The squared linear tolerance used by `start_point.IsEqual(end_point, 1e-4)`
in `ArcVisualCommand._to_shape` (`(1e-4)^2`). -/
def tolSq : ℚ := 1 / 100000000

/-- `gp_Dir` construction from a vector: raises on a null vector, otherwise we
keep the generating vector itself (only its direction is ever used). -/
def mkDir (v : Vec3) : Except String Vec3 :=
  if v = ⟨0, 0, 0⟩ then .error "gp_Dir: null vector" else .ok v

/-- The geometric result of `ArcVisualCommand._to_shape` /
`LinearVisualCommand.to_edge`, carrying exactly the data the visualizer
computes before handing off to OCCT:

* `segment p q` — `BRepBuilderAPI_MakeEdge(gp_Pnt p, gp_Pnt q)`;
* `circle c radiusSq axis fwd` — `Geom_Circle(gp_Ax2(c, axis, fwd), radius)`
  returned whole (the full-circle case);
* `arcEdge c radiusSq axis fwd p q sense` —
  `GC_MakeArcOfCircle(circle.Circ(), p, q, sense)` wrapped into an edge;
* `helix pitch height radiusSq center dir lefthand` — the arguments the code
  passes to `makeHelix` (which then builds the cylindrical-surface curve).
-/
inductive VShape
  | segment (p q : Pt3)
  | circle (center : Pt3) (radiusSq : ℚ) (axis fwd : Vec3)
  | arcEdge (center : Pt3) (radiusSq : ℚ) (axis fwd : Vec3) (p q : Pt3) (sense : Bool)
  | helix (pitch height radiusSq : ℚ) (center : Pt3) (dir : ℤ × ℤ × ℤ) (lefthand : Bool)
deriving DecidableEq, Repr

/-- A canonical motion record: the Python `VisualCommand` class hierarchy.
`LinearVisualCommand` and `RapidVisualCommand` carry only the endpoint;
`CWArcVisualCommand` / `CCWArcVisualCommand` (collapsed into `arc` with a
`cw` flag, the only difference between the two classes) additionally carry
the active arc plane and the `i`/`j`/`k` offsets (`None` when absent). -/
inductive VisualCommand
  | linear (x y z : ℚ)
  | rapid (x y z : ℚ)
  | arc (cw : Bool) (x y z : ℚ) (arc_plane : ℤ × ℤ × ℤ) (i j k : Option ℚ)
deriving DecidableEq, Repr

/-- The `x` attribute set by `VisualCommand.__init__`. -/
def VisualCommand.x : VisualCommand → ℚ
  | .linear x _ _ => x
  | .rapid x _ _ => x
  | .arc _ x _ _ _ _ _ _ => x

/-- The `y` attribute set by `VisualCommand.__init__`. -/
def VisualCommand.y : VisualCommand → ℚ
  | .linear _ y _ => y
  | .rapid _ y _ => y
  | .arc _ _ y _ _ _ _ _ => y

/-- The `z` attribute set by `VisualCommand.__init__`. -/
def VisualCommand.z : VisualCommand → ℚ
  | .linear _ _ z => z
  | .rapid _ _ z => z
  | .arc _ _ _ z _ _ _ _ => z

/-- `VisualCommand.__eq__`: equality is on the `(x, y, z)` position only,
regardless of the motion kind. -/
def pEq (a b : VisualCommand) : Prop :=
  a.x = b.x ∧ a.y = b.y ∧ a.z = b.z

instance (a b : VisualCommand) : Decidable (pEq a b) := by
  unfold pEq; infer_instance

/-- The start point of a record pair, `gp_Pnt(start.x, start.y, start.z)`. -/
def startPt (s : VisualCommand) : Pt3 := ⟨s.x, s.y, s.z⟩

/-- The tail of `ArcVisualCommand._to_shape` after the per-plane block has
computed the center components, the center vector `cv = (i, j, k)`, the
`height`, the helix start center, the squared radius and the in-plane
`full_circle` flag. -/
def finishArc (cw : Bool) (x y z : ℚ) (plane : ℤ × ℤ × ℤ) (cv : Vec3) (height : ℚ)
    (start_center c : Pt3) (radiusSq : ℚ) (full_circle : Prop) [Decidable full_circle]
    (st : Pt3) : Except String (VShape × String) :=
  if height ≠ 0 then
    -- `if height:` — helix branch; pitch selection mirrors the source exactly.
    let pitch := if full_circle then |height| else |height / 2|
    .ok (.helix pitch height radiusSq start_center plane (!cw), "green")
  else do
    let planeV : Vec3 := ⟨(plane.1 : ℚ), (plane.2.1 : ℚ), (plane.2.2 : ℚ)⟩
    let forward := cross cv planeV
    let circle_normal := cross cv forward
    -- `circle_normal_dir` is overridden: CW keeps the vector, CCW negates it.
    let ndir ← mkDir (if cw then circle_normal else negV circle_normal)
    let fdir ← mkDir forward
    let endP : Pt3 := ⟨x, y, z⟩
    if distSq st endP ≤ tolSq then
      .ok (.circle c radiusSq ndir fdir, "yellow")
    else
      .ok (.arcEdge c radiusSq ndir fdir st endP true, "yellow")

/-- `ArcVisualCommand._to_shape`: per-plane dispatch on `self.arc_plane`,
then the shared circle/arc/helix construction. -/
def arcToShape (cw : Bool) (x y z : ℚ) (plane : ℤ × ℤ × ℤ)
    (i j k : Option ℚ) (st : Pt3) : Except String (VShape × String) :=
  if plane = (0, 0, 1) then
    match i, j with
    | some iv, some jv =>
      let cx := st.x + iv
      let cy := st.y + jv
      let cz := (st.z + z) / 2
      let kk := cz - st.z
      finishArc cw x y z plane ⟨iv, jv, kk⟩ (kk * 2) ⟨cx, cy, st.z⟩ ⟨cx, cy, cz⟩
        (iv ^ 2 + jv ^ 2) (st.x = x ∧ st.y = y) st
    | _, _ => .error "I and J must be defined for XY arc"
  else if plane = (0, 1, 0) then
    match i, k with
    | some iv, some kv =>
      let cx := st.x + iv
      let cy := (st.y + y) / 2
      let cz := st.z + kv
      let jj := cy - st.y
      finishArc cw x y z plane ⟨iv, jj, kv⟩ (jj * 2) ⟨cx, st.y, cz⟩ ⟨cx, cy, cz⟩
        (iv ^ 2 + kv ^ 2) (st.x = x ∧ st.z = z) st
    | _, _ => .error "I and K must be defined for XZ arc"
  else if plane = (1, 0, 0) then
    match j, k with
    | some jv, some kv =>
      let cx := (st.x + x) / 2
      let cy := st.y + jv
      let cz := st.z + kv
      let ii := cx - st.x
      finishArc cw x y z plane ⟨ii, jv, kv⟩ (ii * 2) ⟨st.x, cy, cz⟩ ⟨cx, cy, cz⟩
        (jv ^ 2 + kv ^ 2) (st.y = y ∧ st.z = z) st
    | _, _ => .error "J and K must be defined for YZ arc"
  else .error "Unknown arc plane"

/-- `to_edge(self, start)`: linear/rapid records suppress coincident pairs
with the exact `__eq__` test and otherwise build a straight edge tagged
`"yellow"`; arc records delegate to `_to_shape` and tag the resulting edge
`"yellow"` unconditionally (the color from `_to_shape` is discarded —
`return edge, "yellow"  # todo hardcoded color is a wee silly`). -/
def to_edge (self start : VisualCommand) : Except String (Option (VShape × String)) :=
  match self with
  | .linear x y z | .rapid x y z =>
    if pEq start self then .ok none
    else .ok (some (.segment (startPt start) ⟨x, y, z⟩, "yellow"))
  | .arc cw x y z plane i j k => do
    let sc ← arcToShape cw x y z plane i j k (startPt start)
    .ok (some (sc.1, "yellow"))

/-- `to_ais(self, start)`: linear/rapid build an `AIS_Line` (no color set,
modelled as `none`); arcs build an `AIS_Circle` / `AIS_Shape` from `_to_shape`
and set the color `_to_shape` chose. -/
def to_ais (self start : VisualCommand) : Except String (Option (VShape × Option String)) :=
  match self with
  | .linear x y z | .rapid x y z =>
    if pEq start self then .ok none
    else .ok (some (.segment (startPt start) ⟨x, y, z⟩, none))
  | .arc cw x y z plane i j k => do
    let sc ← arcToShape cw x y z plane i j k (startPt start)
    .ok (some (sc.1, some sc.2))

deriving instance DecidableEq for Except

/-- `Except.ok a >>= f` reduces to `f a` (evaluation helper). -/
@[simp] theorem exceptBindOk (a : α) (f : α → Except ε β) :
    (Except.ok a : Except ε α) >>= f = f a := rfl

/-- `Except.error e >>= f` propagates the error (evaluation helper). -/
@[simp] theorem exceptBindErr (e : ε) (f : α → Except ε β) :
    (Except.error e : Except ε α) >>= f = .error e := rfl


/-- The lower-cased parameter mapping of one raw command
(`{k.lower(): v for k, v in command.Parameters.items()}`), restricted to the
keys the visualizer ever reads (`x,y,z,i,j,k,r`); a missing key is `none`.
(FreeCAD commands may carry further keys such as `f`; they are merged into the
carried dict and swallowed unread by `**kwargs`, so they are omitted here.) -/
structure CParams where
  x : Option ℚ := none
  y : Option ℚ := none
  z : Option ℚ := none
  i : Option ℚ := none
  j : Option ℚ := none
  k : Option ℚ := none
  r : Option ℚ := none
deriving DecidableEq, Repr

/-- One raw motion command: a mnemonic plus its parameter mapping. -/
structure Command where
  name : String
  params : CParams
deriving DecidableEq, Repr

/-- The mutable `params` dict threaded through `generate_visual_commands`:
initially `{"x": 0, "y": 0, "arc_plane": (0, 0, 1)}`, so every coordinate key
other than `x`/`y` starts out absent. -/
structure TrackerParams where
  x : Option ℚ
  y : Option ℚ
  z : Option ℚ
  i : Option ℚ
  j : Option ℚ
  k : Option ℚ
  r : Option ℚ
  arc_plane : ℤ × ℤ × ℤ
deriving DecidableEq, Repr

/-- Dict-merge on one key: `{**params, **new_params}` keeps the carried value
only where the new mapping has no binding. -/
def mergeField (p n : Option ℚ) : Option ℚ :=
  match n with
  | some v => some v
  | none => p

/-- `combined_params = {**params, **new_params}` (the command mapping never
contains `arc_plane`, so the carried plane survives the merge). -/
def mergeParams (p : TrackerParams) (n : CParams) : TrackerParams :=
  ⟨mergeField p.x n.x, mergeField p.y n.y, mergeField p.z n.z, mergeField p.i n.i,
    mergeField p.j n.j, mergeField p.k n.k, mergeField p.r n.r, p.arc_plane⟩

/-- One attribute of the relative-to-absolute conversion:
`new_params[attr] = new_params[attr] + params[attr]` runs only when the
command carries the attribute, and raises `KeyError` when the carried dict
has no previous value for it (the source comments that this "will catch
fire" in that situation). -/
def convAttr (pv nv : Option ℚ) : Except String (Option ℚ) :=
  match nv with
  | none => .ok none
  | some d =>
    match pv with
    | none => .error "KeyError"
    | some p => .ok (some (d + p))

/-- The `if relative:` block of `generate_visual_commands`: converts the
`x`, `y`, `z` keys (and only those — `rel_attrs = ["x", "y", "z"]`; `i`/`j`/`k`
offsets are never converted) by adding the carried absolute position. -/
def convRel (p : TrackerParams) (n : CParams) : Except String CParams := do
  let nx ← convAttr p.x n.x
  let ny ← convAttr p.y n.y
  let nz ← convAttr p.z n.z
  .ok { n with x := nx, y := ny, z := nz }

/-- `LinearVisualCommand(**combined_params)`: `x`, `y`, `z` are required
keyword arguments, so a missing one raises `TypeError`; everything else is
swallowed by `**kwargs`. -/
def mkLinear (p : TrackerParams) : Option VisualCommand :=
  match p.x, p.y, p.z with
  | some xv, some yv, some zv => some (.linear xv yv zv)
  | _, _, _ => none

/-- `RapidVisualCommand(**combined_params)` (same constructor signature). -/
def mkRapid (p : TrackerParams) : Option VisualCommand :=
  match p.x, p.y, p.z with
  | some xv, some yv, some zv => some (.rapid xv yv zv)
  | _, _, _ => none

/-- `CWArcVisualCommand` / `CCWArcVisualCommand` construction: additionally
reads `arc_plane` (always present in the carried dict) and the optional
`i`, `j`, `k` offsets defaulting to `None`. -/
def mkArc (cw : Bool) (p : TrackerParams) : Option VisualCommand :=
  match p.x, p.y, p.z with
  | some xv, some yv, some zv => some (.arc cw xv yv zv p.arc_plane p.i p.j p.k)
  | _, _, _ => none

/-- `add_command(visual_commands, cls, **params)`: appends the constructed
record, or swallows the `TypeError` (printing "Bonk") when construction
fails; either way it returns `params` so the caller carries the combined
dict forward. -/
def add_command (recs : List VisualCommand) (mk : TrackerParams → Option VisualCommand)
    (combined : TrackerParams) : List VisualCommand × TrackerParams :=
  match mk combined with
  | some v => (recs ++ [v], combined)
  | none => (recs, combined)

/-- The interpreter state of `generate_visual_commands`: the carried `params`
dict plus the `relative`, `canned`, `canned_r` and `canned_z` locals. -/
structure TrackerState where
  params : TrackerParams
  relative : Bool
  canned : Bool
  canned_r : Bool
  canned_z : Option ℚ
deriving DecidableEq, Repr

/-- `params = {"x": 0, "y": 0, "arc_plane": (0, 0, 1)}`, `relative = False`,
`canned = False`, `canned_r = False`, `canned_z = None`. -/
def initState : TrackerState :=
  ⟨⟨some 0, some 0, none, none, none, none, none, (0, 0, 1)⟩, false, false, false, none⟩

/-- The tracker state whose carried dict holds the absolute position
`(px, py, pz)` and is otherwise initial. -/
def initStateAt (px py pz : ℚ) : TrackerState :=
  ⟨⟨some px, some py, some pz, none, none, none, none, (0, 0, 1)⟩, false, false, false, none⟩

/-- The `if not canned:` head of the `G81` branch: on the first command of a
canned run, capture the pre-cycle Z as the return height unless already in
G99 (R-plane) mode — `canned_z = params["z"]` raises `KeyError` when the
carried dict has no `z` yet. Returns the `canned_z` value to carry. -/
def cannedRetZ (s : TrackerState) : Except String (Option ℚ) :=
  if !s.canned then
    if !s.canned_r then
      match s.params.z with
      | none => .error "KeyError"
      | some z0 => .ok (some z0)
    else .ok s.canned_z
  else .ok s.canned_z

/-- The retract-stroke parameters of the `G81` branch: in G99 mode the `z`
key is overwritten with the command's `r` value (`combined_params["r"]`
raises `KeyError` when absent), otherwise with the captured `canned_z`. -/
def cannedZParams (cr : Bool) (cz : Option ℚ) (combined : TrackerParams) :
    Except String TrackerParams :=
  if cr then
    match combined.r with
    | none => .error "KeyError"
    | some rv => .ok { combined with z := some rv }
  else .ok { combined with z := cz }

/-- The `G81` (drilling canned cycle) branch: capture the return height,
emit the down-stroke Linear record from `combined_params`, then the
retract-stroke Linear record with the `z` key overwritten, and carry the
second record's parameters forward. -/
def g81Step (s : TrackerState) (recs : List VisualCommand) (combined : TrackerParams) :
    Except String (TrackerState × List VisualCommand) :=
  cannedRetZ s >>= fun cz =>
    cannedZParams s.canned_r cz combined >>= fun combined2 =>
      .ok ({ s with
              params := (add_command (add_command recs mkLinear combined).1 mkLinear
                combined2).2,
              canned := true, canned_z := cz },
        (add_command (add_command recs mkLinear combined).1 mkLinear combined2).1)

/-- The `match command.Name` dispatch of `generate_visual_commands`, given the
already-merged `combined_params`. The final catch-all covers `"G54"`,
comments (names starting with `(`), `M`-codes and unknown mnemonics, all of
which leave the state untouched (at most printing a warning).

In the `G81` else-branch the source stores `canned_z` (a value that can be
`None`) under the `z` key; this model writes it into the `z` field directly,
identifying a `None`-valued key with an absent one. -/
def dispatch (s : TrackerState) (recs : List VisualCommand) (name : String)
    (combined : TrackerParams) : Except String (TrackerState × List VisualCommand) :=
  if name = "G0" then
    let rp := add_command recs mkRapid combined
    .ok ({ s with params := rp.2 }, rp.1)
  else if name = "G1" then
    let rp := add_command recs mkLinear combined
    .ok ({ s with params := rp.2 }, rp.1)
  else if name = "G2" then
    let rp := add_command recs (mkArc true) combined
    .ok ({ s with params := rp.2 }, rp.1)
  else if name = "G3" then
    let rp := add_command recs (mkArc false) combined
    .ok ({ s with params := rp.2 }, rp.1)
  else if name = "G17" then
    .ok ({ s with params := { s.params with arc_plane := (0, 0, 1) } }, recs)
  else if name = "G18" then
    .ok ({ s with params := { s.params with arc_plane := (0, 1, 0) } }, recs)
  else if name = "G19" then
    .ok ({ s with params := { s.params with arc_plane := (1, 0, 0) } }, recs)
  else if name = "G81" then g81Step s recs combined
  else if name = "G80" then .ok ({ s with canned := false }, recs)
  else if name = "G91" then .ok ({ s with relative := true }, recs)
  else if name = "G90" then .ok ({ s with relative := false }, recs)
  else if name = "G98" then .ok ({ s with canned_r := false }, recs)
  else if name = "G99" then .ok ({ s with canned_r := true }, recs)
  else .ok (s, recs)

/-- One iteration of the command loop: lower-cased parameters, the
relative-mode conversion, the dict merge, then the mnemonic dispatch. -/
def trackStep (acc : TrackerState × List VisualCommand) (c : Command) :
    Except String (TrackerState × List VisualCommand) :=
  (if acc.1.relative then convRel acc.1.params c.params else .ok c.params) >>= fun new =>
    dispatch acc.1 acc.2 c.name (mergeParams acc.1.params new)

/-- The command loop of `generate_visual_commands` (the Python `for command
in commands` body), run from an arbitrary starting state. -/
def runCmds (acc : TrackerState × List VisualCommand) :
    List Command → Except String (TrackerState × List VisualCommand)
  | [] => .ok acc
  | c :: cs => do
    let acc2 ← trackStep acc c
    runCmds acc2 cs

/-- The record sequence the tracker emits from a given starting state. -/
def trackFrom (s0 : TrackerState) (cmds : List Command) :
    Except String (List VisualCommand) :=
  (runCmds (s0, []) cmds).map (fun a => a.2)

/-- `generate_visual_commands`, for a job whose flattened operation command
list is `cmds`. -/
def generate_visual_commands (cmds : List Command) : Except String (List VisualCommand) :=
  trackFrom initState cmds

/-- `color_edge_map[color_key].append(edge)` on an insertion-ordered
association list (Python dicts preserve insertion order, and
`list(color_compound_map.items())` keeps it). -/
def bucketAdd (m : List (String × List VShape)) (color : String) (e : VShape) :
    List (String × List VShape) :=
  match m with
  | [] => [(color, [e])]
  | (c, es) :: rest =>
    if c = color then (c, es ++ [e]) :: rest else (c, es) :: bucketAdd rest color e

/-- The `for start, end in pairwise(visual_commands)` loop of
`visual_commands_to_edges`: degenerate pairs (`to_edge` returning `None`)
contribute nothing; otherwise the edge joins its color bucket. -/
def pairFold (m : List (String × List VShape)) :
    List (VisualCommand × VisualCommand) → Except String (List (String × List VShape))
  | [] => .ok m
  | (s, e) :: ps => do
    let r ← to_edge e s
    match r with
    | none => pairFold m ps
    | some sc => pairFold (bucketAdd m sc.2 sc.1) ps

/-- `visual_commands_to_edges` (the inverse world transform applied to each
compound is an external geometry-kernel operation that does not change the
bucket structure, so each bucket is modelled as its list of edges). -/
def visual_commands_to_edges (cmds : List VisualCommand) :
    Except String (List (String × List VShape)) :=
  if cmds.length < 2 then .ok []
  else pairFold [] (cmds.zip cmds.tail)

/-- The tracker followed by the edge-mode display assembler. -/
def edgePipeline (cmds : List Command) : Except String (List (String × List VShape)) := do
  let recs ← generate_visual_commands cmds
  visual_commands_to_edges recs

/-- A command carrying no parameters at all (`G99`, `G80`, ...). -/
def noParams : CParams := {}

/-! ## Helper lemmas -/

/-- Every color key `to_edge` ever emits is `"yellow"` (the arc branch
discards the color computed by `_to_shape`). -/
theorem to_edge_yellow (e s : VisualCommand) (sh : VShape) (col : String)
    (h : to_edge e s = .ok (some (sh, col))) : col = "yellow" := by
  cases e <;> simp only [to_edge] at h
  · split at h
    · exact absurd h (by simp)
    · simp only [Except.ok.injEq, Option.some.injEq, Prod.mk.injEq] at h
      exact h.2.symm
  · split at h
    · exact absurd h (by simp)
    · simp only [Except.ok.injEq, Option.some.injEq, Prod.mk.injEq] at h
      exact h.2.symm
  · rename_i cw x y z plane i j k
    cases harc : arcToShape cw x y z plane i j k (startPt s) with
    | error err => rw [harc] at h; exact absurd h (by simp [exceptBindErr])
    | ok sc =>
      rw [harc] at h
      simp only [exceptBindOk, Except.ok.injEq, Option.some.injEq, Prod.mk.injEq] at h
      exact h.2.symm

/-- Adding an edge under the key `"yellow"` preserves "all buckets are
yellow". -/
theorem bucketAdd_yellow (e : VShape) :
    ∀ m : List (String × List VShape), (∀ p ∈ m, p.1 = "yellow") →
    ∀ p ∈ bucketAdd m "yellow" e, p.1 = "yellow" := by
  intro m
  induction m with
  | nil => intro _ p hp; simp [bucketAdd] at hp; simp [hp]
  | cons hd tl ih =>
    obtain ⟨c, es⟩ := hd
    intro hm p hp
    have hc : c = "yellow" := hm (c, es) (List.mem_cons_self _ _)
    subst hc
    simp only [bucketAdd, if_pos] at hp
    rcases List.mem_cons.1 hp with h1 | h1
    · simp [h1]
    · exact hm p (List.mem_cons_of_mem _ h1)

/-- The pairwise fold of the edge assembler only ever creates `"yellow"`
buckets. -/
theorem pairFold_yellow :
    ∀ (ps : List (VisualCommand × VisualCommand)) (m : List (String × List VShape)),
    (∀ p ∈ m, p.1 = "yellow") → ∀ out, pairFold m ps = .ok out →
    ∀ p ∈ out, p.1 = "yellow" := by
  intro ps
  induction ps with
  | nil =>
    intro m hm out hout
    simp only [pairFold, Except.ok.injEq] at hout
    subst hout
    exact hm
  | cons pr tl ih =>
    obtain ⟨s, e⟩ := pr
    intro m hm out hout
    simp only [pairFold] at hout
    cases hte : to_edge e s with
    | error err => rw [hte] at hout; exact absurd hout (by simp [exceptBindErr])
    | ok r =>
      rw [hte] at hout
      simp only [exceptBindOk] at hout
      cases r with
      | none => exact ih m hm out hout
      | some sc =>
        obtain ⟨sh, col⟩ := sc
        have hcol : col = "yellow" := to_edge_yellow e s sh col hte
        subst hcol
        exact ih _ (bucketAdd_yellow sh m hm) out hout

/-- An XY-plane arc with a missing `i` or `j` offset fails, whatever the
start point or receiver. -/
theorem arcMissingXY :
    ∀ (cw : Bool) (x y z : ℚ) (i j k : Option ℚ) (st : Pt3) (sv : VisualCommand),
    i = none ∨ j = none →
    arcToShape cw x y z (0, 0, 1) i j k st = .error "I and J must be defined for XY arc" ∧
    to_edge (.arc cw x y z (0, 0, 1) i j k) sv = .error "I and J must be defined for XY arc" := by
  intro cw x y z i j k st sv h
  have harc : ∀ p : Pt3,
      arcToShape cw x y z (0, 0, 1) i j k p = .error "I and J must be defined for XY arc" := by
    intro p
    rcases h with h | h <;> subst h <;> unfold arcToShape
    · cases j <;> simp
    · cases i <;> simp
  refine ⟨harc st, ?_⟩
  simp only [to_edge]
  rw [harc (startPt sv)]
  rfl

/-- An XZ-plane arc with a missing `i` or `k` offset fails. -/
theorem arcMissingXZ :
    ∀ (cw : Bool) (x y z : ℚ) (i j k : Option ℚ) (st : Pt3) (sv : VisualCommand),
    i = none ∨ k = none →
    arcToShape cw x y z (0, 1, 0) i j k st = .error "I and K must be defined for XZ arc" ∧
    to_edge (.arc cw x y z (0, 1, 0) i j k) sv = .error "I and K must be defined for XZ arc" := by
  intro cw x y z i j k st sv h
  have harc : ∀ p : Pt3,
      arcToShape cw x y z (0, 1, 0) i j k p = .error "I and K must be defined for XZ arc" := by
    intro p
    rcases h with h | h <;> subst h <;> unfold arcToShape
    · cases k <;> simp
    · cases i <;> simp
  refine ⟨harc st, ?_⟩
  simp only [to_edge]
  rw [harc (startPt sv)]
  rfl

/-- A YZ-plane arc with a missing `j` or `k` offset fails. -/
theorem arcMissingYZ :
    ∀ (cw : Bool) (x y z : ℚ) (i j k : Option ℚ) (st : Pt3) (sv : VisualCommand),
    j = none ∨ k = none →
    arcToShape cw x y z (1, 0, 0) i j k st = .error "J and K must be defined for YZ arc" ∧
    to_edge (.arc cw x y z (1, 0, 0) i j k) sv = .error "J and K must be defined for YZ arc" := by
  intro cw x y z i j k st sv h
  have harc : ∀ p : Pt3,
      arcToShape cw x y z (1, 0, 0) i j k p = .error "J and K must be defined for YZ arc" := by
    intro p
    rcases h with h | h <;> subst h <;> unfold arcToShape
    · cases k <;> simp
    · cases j <;> simp
  refine ⟨harc st, ?_⟩
  simp only [to_edge]
  rw [harc (startPt sv)]
  rfl

/-- A degenerate XY-plane arc pair with offsets `(a, b) ≠ (0, 0)` reconstructs
as a full `Geom_Circle` centered at start + offsets. -/
theorem fullCircleXY : ∀ (cw : Bool) (x y z a b : ℚ) (kk : Option ℚ), ¬(a = 0 ∧ b = 0) →
    ∃ n f, arcToShape cw x y z (0, 0, 1) (some a) (some b) kk ⟨x, y, z⟩ =
      .ok (.circle ⟨x + a, y + b, z⟩ (a ^ 2 + b ^ 2) n f, "yellow") := by
  intro cw x y z a b kk hab
  have hz2 : (z + z) / 2 = z := add_self_div_two z
  unfold arcToShape
  simp only [reduceIte, hz2, sub_self]
  unfold finishArc
  norm_num [cross, mkDir, negV, distSq, tolSq]
  have k1 : ¬(a * a + b * b = 0) := by
    intro h0
    exact hab ⟨by nlinarith [mul_self_nonneg a, mul_self_nonneg b],
      by nlinarith [mul_self_nonneg a, mul_self_nonneg b]⟩
  have k2 : ¬(b * b + a * a = 0) := by intro h0; exact k1 (by linarith)
  have k3 : ¬(-(a * a) - b * b = 0) := by intro h0; exact k1 (by linarith)
  have k4 : ¬(-(b * b) - a * a = 0) := by intro h0; exact k1 (by linarith)
  have h1 : ¬(b = 0 ∧ a = 0) := fun hp => hab ⟨hp.2, hp.1⟩
  cases cw <;> simp [Vec3.mk.injEq, k1, k2, k3, k4, h1, hab]

/-- Same for the XZ plane (`i`, `k` offsets). -/
theorem fullCircleXZ : ∀ (cw : Bool) (x y z a c : ℚ) (jj : Option ℚ), ¬(a = 0 ∧ c = 0) →
    ∃ n f, arcToShape cw x y z (0, 1, 0) (some a) jj (some c) ⟨x, y, z⟩ =
      .ok (.circle ⟨x + a, y, z + c⟩ (a ^ 2 + c ^ 2) n f, "yellow") := by
  intro cw x y z a c jj hac
  have hy2 : (y + y) / 2 = y := add_self_div_two y
  unfold arcToShape
  simp only [reduceIte, hy2, sub_self]
  unfold finishArc
  norm_num [cross, mkDir, negV, distSq, tolSq]
  have k1 : ¬(a * a + c * c = 0) := by
    intro h0
    exact hac ⟨by nlinarith [mul_self_nonneg a, mul_self_nonneg c],
      by nlinarith [mul_self_nonneg a, mul_self_nonneg c]⟩
  have k2 : ¬(c * c + a * a = 0) := by intro h0; exact k1 (by linarith)
  have k3 : ¬(-(a * a) - c * c = 0) := by intro h0; exact k1 (by linarith)
  have k4 : ¬(-(c * c) - a * a = 0) := by intro h0; exact k1 (by linarith)
  have h1 : ¬(c = 0 ∧ a = 0) := fun hp => hac ⟨hp.2, hp.1⟩
  cases cw <;> simp [Vec3.mk.injEq, k1, k2, k3, k4, h1, hac]

/-- Same for the YZ plane (`j`, `k` offsets). -/
theorem fullCircleYZ : ∀ (cw : Bool) (x y z b c : ℚ) (ii : Option ℚ), ¬(b = 0 ∧ c = 0) →
    ∃ n f, arcToShape cw x y z (1, 0, 0) ii (some b) (some c) ⟨x, y, z⟩ =
      .ok (.circle ⟨x, y + b, z + c⟩ (b ^ 2 + c ^ 2) n f, "yellow") := by
  intro cw x y z b c ii hbc
  have hx2 : (x + x) / 2 = x := add_self_div_two x
  unfold arcToShape
  simp only [reduceIte, hx2, sub_self]
  unfold finishArc
  norm_num [cross, mkDir, negV, distSq, tolSq]
  have k1 : ¬(b * b + c * c = 0) := by
    intro h0
    exact hbc ⟨by nlinarith [mul_self_nonneg b, mul_self_nonneg c],
      by nlinarith [mul_self_nonneg b, mul_self_nonneg c]⟩
  have k2 : ¬(c * c + b * b = 0) := by intro h0; exact k1 (by linarith)
  have k3 : ¬(-(b * b) - c * c = 0) := by intro h0; exact k1 (by linarith)
  have k4 : ¬(-(c * c) - b * b = 0) := by intro h0; exact k1 (by linarith)
  have h1 : ¬(c = 0 ∧ b = 0) := fun hp => hbc ⟨hp.2, hp.1⟩
  cases cw <;> simp [Vec3.mk.injEq, k1, k2, k3, k4, h1, hbc]

/-- Degenerate-pair suppression for linear records is exact equality. -/
theorem linSuppressionExact : ∀ (x y z : ℚ) (s : VisualCommand),
    to_edge (.linear x y z) s = .ok none ↔ (s.x = x ∧ s.y = y ∧ s.z = z) := by
  intro x y z s
  by_cases h : pEq s (.linear x y z)
  · have h2 := h
    simp only [pEq, VisualCommand.x, VisualCommand.y, VisualCommand.z] at h2
    simp only [to_edge, if_pos h]
    simpa using h2
  · have h2 := h
    simp only [pEq, VisualCommand.x, VisualCommand.y, VisualCommand.z] at h2
    simp only [to_edge, if_neg h]
    simpa using h2

/-- Degenerate-pair suppression for rapid records is exact equality. -/
theorem rapidSuppressionExact : ∀ (x y z : ℚ) (s : VisualCommand),
    to_edge (.rapid x y z) s = .ok none ↔ (s.x = x ∧ s.y = y ∧ s.z = z) := by
  intro x y z s
  by_cases h : pEq s (.rapid x y z)
  · have h2 := h
    simp only [pEq, VisualCommand.x, VisualCommand.y, VisualCommand.z] at h2
    simp only [to_edge, if_pos h]
    simpa using h2
  · have h2 := h
    simp only [pEq, VisualCommand.x, VisualCommand.y, VisualCommand.z] at h2
    simp only [to_edge, if_neg h]
    simpa using h2

/-- The circle-versus-arc decision for a flat XY arc is exactly the `1e-4`
tolerance test on the start/end distance. -/
theorem arcToleranceXY : ∀ (cw : Bool) (sx sy sz x y a b : ℚ) (kk : Option ℚ),
    ¬(a = 0 ∧ b = 0) →
    ((∃ c r n f, arcToShape cw x y sz (0, 0, 1) (some a) (some b) kk ⟨sx, sy, sz⟩ =
        .ok (.circle c r n f, "yellow")) ↔
      distSq ⟨sx, sy, sz⟩ ⟨x, y, sz⟩ ≤ tolSq) := by
  intro cw sx sy sz x y a b kk hab
  have hz2 : (sz + sz) / 2 = sz := add_self_div_two sz
  unfold arcToShape
  simp only [reduceIte, hz2, sub_self]
  unfold finishArc
  norm_num [cross, mkDir, negV]
  have k1 : ¬(a * a + b * b = 0) := by
    intro h0
    exact hab ⟨by nlinarith [mul_self_nonneg a, mul_self_nonneg b],
      by nlinarith [mul_self_nonneg a, mul_self_nonneg b]⟩
  have k2 : ¬(b * b + a * a = 0) := by intro h0; exact k1 (by linarith)
  have k3 : ¬(-(a * a) - b * b = 0) := by intro h0; exact k1 (by linarith)
  have k4 : ¬(-(b * b) - a * a = 0) := by intro h0; exact k1 (by linarith)
  have h1 : ¬(b = 0 ∧ a = 0) := fun hp => hab ⟨hp.2, hp.1⟩
  by_cases hd : distSq ⟨sx, sy, sz⟩ ⟨x, y, sz⟩ ≤ tolSq
  · cases cw <;> simp [Vec3.mk.injEq, k1, k2, k3, k4, h1, hab, hd]
  · cases cw <;> simp [Vec3.mk.injEq, k1, k2, k3, k4, h1, hab, hd]

/-! ## Claim theorems -/

/-- C1 (counterexample): an arc record at the same `(x, y, z)` position as its
start does produce a drawable curve — `to_edge` returns a full circle and the
pair lands in the `"yellow"` bucket, so the claimed suppression "regardless of
motion kind" fails for arcs. -/
theorem C1_counterexample :
    pEq (.rapid 1 2 3) (.arc true 1 2 3 (0, 0, 1) (some 0) (some 5) none) ∧
    to_edge (.arc true 1 2 3 (0, 0, 1) (some 0) (some 5) none) (.rapid 1 2 3) =
      .ok (some (.circle ⟨1, 7, 3⟩ 25 ⟨0, 0, -25⟩ ⟨5, 0, 0⟩, "yellow")) ∧
    visual_commands_to_edges [.rapid 1 2 3, .arc true 1 2 3 (0, 0, 1) (some 0) (some 5) none] =
      .ok [("yellow", [.circle ⟨1, 7, 3⟩ 25 ⟨0, 0, -25⟩ ⟨5, 0, 0⟩])] := by
  have h2 : to_edge (.arc true 1 2 3 (0, 0, 1) (some 0) (some 5) none) (.rapid 1 2 3) =
      .ok (some (.circle ⟨1, 7, 3⟩ 25 ⟨0, 0, -25⟩ ⟨5, 0, 0⟩, "yellow")) := by
    unfold to_edge arcToShape finishArc
    norm_num [cross, mkDir, negV, distSq, tolSq, startPt, VisualCommand.x, VisualCommand.y,
      VisualCommand.z]
  refine ⟨by decide, h2, ?_⟩
  unfold visual_commands_to_edges
  simp [h2, bucketAdd, pairFold]

/-- C1 (amended): for every consecutive pair with equal `(x, y, z)` whose
second record is a linear or rapid motion, `to_ais` and `to_edge` return
`None` and the pair contributes nothing to any color bucket; an arc record at
the same position instead reconstructs as a full circle (see the
counterexample). -/
theorem C1_degenerate_pair_suppression :
    ∀ (x y z : ℚ) (s : VisualCommand), s.x = x → s.y = y → s.z = z →
      to_edge (.linear x y z) s = .ok none ∧ to_edge (.rapid x y z) s = .ok none ∧
      to_ais (.linear x y z) s = .ok none ∧ to_ais (.rapid x y z) s = .ok none ∧
      visual_commands_to_edges [s, .linear x y z] = .ok [] ∧
      visual_commands_to_edges [s, .rapid x y z] = .ok [] := by
  intro x y z s hx hy hz
  have hl : pEq s (.linear x y z) := ⟨by simpa [VisualCommand.x] using hx,
    by simpa [VisualCommand.y] using hy, by simpa [VisualCommand.z] using hz⟩
  have hr : pEq s (.rapid x y z) := ⟨by simpa [VisualCommand.x] using hx,
    by simpa [VisualCommand.y] using hy, by simpa [VisualCommand.z] using hz⟩
  have el : to_edge (.linear x y z) s = .ok none := by
    simp only [to_edge]; rw [if_pos hl]
  have er : to_edge (.rapid x y z) s = .ok none := by
    simp only [to_edge]; rw [if_pos hr]
  refine ⟨el, er, ?_, ?_, ?_, ?_⟩
  · simp only [to_ais]; rw [if_pos hl]
  · simp only [to_ais]; rw [if_pos hr]
  · unfold visual_commands_to_edges; simp [el, pairFold]
  · unfold visual_commands_to_edges; simp [er, pairFold]

/-- C1 (witness): the amended suppression at a concrete coincident pair whose
start record is an arc. -/
theorem C1_witness :
    to_edge (.linear 1 2 3) (.arc false 1 2 3 (0, 0, 1) none none none) = .ok none ∧
    to_edge (.rapid 1 2 3) (.arc false 1 2 3 (0, 0, 1) none none none) = .ok none ∧
    to_ais (.linear 1 2 3) (.arc false 1 2 3 (0, 0, 1) none none none) = .ok none ∧
    to_ais (.rapid 1 2 3) (.arc false 1 2 3 (0, 0, 1) none none none) = .ok none ∧
    visual_commands_to_edges [.arc false 1 2 3 (0, 0, 1) none none none, .linear 1 2 3] =
      .ok [] ∧
    visual_commands_to_edges [.arc false 1 2 3 (0, 0, 1) none none none, .rapid 1 2 3] =
      .ok [] :=
  C1_degenerate_pair_suppression 1 2 3 (.arc false 1 2 3 (0, 0, 1) none none none)
    rfl rfl rfl

/-- C2 (confirmed): from `(0, 0, 5)`, the stream `G99; G81 X2 Y-2 Z-2 R3; G80`
emits exactly two Linear records, `(2, -2, -2)` then `(2, -2, 3)` (the R-plane
retract height), and neither returns to the original `Z = 5`. -/
theorem C2_canned_cycle_expansion :
    trackFrom (initStateAt 0 0 5)
      [⟨"G99", noParams⟩, ⟨"G81", { x := some 2, y := some (-2), z := some (-2), r := some 3 }⟩,
        ⟨"G80", noParams⟩] =
      .ok [.linear 2 (-2) (-2), .linear 2 (-2) 3] ∧
    VisualCommand.z (.linear 2 (-2) (-2)) ≠ 5 ∧ VisualCommand.z (.linear 2 (-2) 3) ≠ 5 := by
  refine ⟨by decide, by decide, by decide⟩

/-- C3 (counterexample): a `G0`, `G1`, `G2` stream (XY plane, non-helical,
non-degenerate) produces exactly one color class, `"yellow"`, holding both
reconstructed curves — not the claimed `rapid`/`feed` split. -/
theorem C3_counterexample :
    edgePipeline
      [⟨"G0", { x := some 0, y := some 0, z := some 0 }⟩,
        ⟨"G1", { x := some 5 }⟩,
        ⟨"G2", { x := some 5, y := some 10, i := some 0, j := some 5 }⟩] =
    .ok [("yellow",
      [.segment ⟨0, 0, 0⟩ ⟨5, 0, 0⟩,
        .arcEdge ⟨5, 5, 0⟩ 25 ⟨0, 0, -25⟩ ⟨5, 0, 0⟩ ⟨5, 0, 0⟩ ⟨5, 10, 0⟩ true]) ] := by
  have hrecs : generate_visual_commands
      [⟨"G0", { x := some 0, y := some 0, z := some 0 }⟩,
        ⟨"G1", { x := some 5 }⟩,
        ⟨"G2", { x := some 5, y := some 10, i := some 0, j := some 5 }⟩] =
      .ok [.rapid 0 0 0, .linear 5 0 0, .arc true 5 10 0 (0, 0, 1) (some 0) (some 5) none] := by
    decide
  have h1 : to_edge (.linear 5 0 0) (.rapid 0 0 0) =
      .ok (some (.segment ⟨0, 0, 0⟩ ⟨5, 0, 0⟩, "yellow")) := by
    have hne : ¬ pEq (.rapid 0 0 0) (.linear 5 0 0) := by decide
    simp [to_edge, if_neg hne, startPt, VisualCommand.x, VisualCommand.y, VisualCommand.z]
  have h2 : to_edge (.arc true 5 10 0 (0, 0, 1) (some 0) (some 5) none) (.linear 5 0 0) =
      .ok (some (.arcEdge ⟨5, 5, 0⟩ 25 ⟨0, 0, -25⟩ ⟨5, 0, 0⟩ ⟨5, 0, 0⟩ ⟨5, 10, 0⟩ true,
        "yellow")) := by
    unfold to_edge arcToShape finishArc
    norm_num [cross, mkDir, negV, distSq, tolSq, startPt, VisualCommand.x, VisualCommand.y,
      VisualCommand.z]
  unfold edgePipeline
  rw [hrecs, exceptBindOk]
  unfold visual_commands_to_edges
  norm_num
  simp only [pairFold, h1, h2, exceptBindOk, bucketAdd]
  rfl

/-- C3 (amended): in edge-list presentation every bucket the assembler builds
carries the color key `"yellow"` (the edge path hardcodes it for rapid, feed
and arc curves alike), so the scenario yields exactly one color class rather
than a `rapid`/`feed` split. -/
theorem C3_color_bucketing :
    ∀ (cmds : List VisualCommand) (out : List (String × List VShape)),
      visual_commands_to_edges cmds = .ok out → ∀ p ∈ out, p.1 = "yellow" := by
  intro cmds out hout p hp
  unfold visual_commands_to_edges at hout
  split at hout
  · simp only [Except.ok.injEq] at hout
    subst hout
    simp at hp
  · exact pairFold_yellow _ [] (by simp) out hout p hp

/-- C3 (witness): the bucketing theorem at a concrete two-record stream and
its single concrete bucket. -/
theorem C3_witness :
    Prod.fst ("yellow", [VShape.segment ⟨0, 0, 0⟩ ⟨5, 0, 0⟩]) = "yellow" :=
  C3_color_bucketing [.linear 0 0 0, .linear 5 0 0]
    [("yellow", [VShape.segment ⟨0, 0, 0⟩ ⟨5, 0, 0⟩])]
    (by
      have hne : ¬ pEq (.linear 0 0 0) (.linear 5 0 0) := by decide
      unfold visual_commands_to_edges
      simp [pairFold, to_edge, if_neg hne, startPt, VisualCommand.x, VisualCommand.y,
        VisualCommand.z, bucketAdd])
    ("yellow", [VShape.segment ⟨0, 0, 0⟩ ⟨5, 0, 0⟩]) (List.mem_cons_self _ _)

/-- C4 (confirmed): an arc record lacking a required in-plane offset for its
plane (XY needs `i`,`j`; XZ needs `i`,`k`; YZ needs `j`,`k`) makes the
reconstructor fail with the corresponding hard `ValueError`, both directly in
`_to_shape` and through `to_edge`; no offset is defaulted and no curve is
drawn. -/
theorem C4_missing_offset_error :
    (∀ (cw : Bool) (x y z : ℚ) (i j k : Option ℚ) (st : Pt3) (sv : VisualCommand),
      i = none ∨ j = none →
      arcToShape cw x y z (0, 0, 1) i j k st = .error "I and J must be defined for XY arc" ∧
      to_edge (.arc cw x y z (0, 0, 1) i j k) sv =
        .error "I and J must be defined for XY arc") ∧
    (∀ (cw : Bool) (x y z : ℚ) (i j k : Option ℚ) (st : Pt3) (sv : VisualCommand),
      i = none ∨ k = none →
      arcToShape cw x y z (0, 1, 0) i j k st = .error "I and K must be defined for XZ arc" ∧
      to_edge (.arc cw x y z (0, 1, 0) i j k) sv =
        .error "I and K must be defined for XZ arc") ∧
    (∀ (cw : Bool) (x y z : ℚ) (i j k : Option ℚ) (st : Pt3) (sv : VisualCommand),
      j = none ∨ k = none →
      arcToShape cw x y z (1, 0, 0) i j k st = .error "J and K must be defined for YZ arc" ∧
      to_edge (.arc cw x y z (1, 0, 0) i j k) sv =
        .error "J and K must be defined for YZ arc") :=
  ⟨arcMissingXY, arcMissingXZ, arcMissingYZ⟩

/-- C4 (witness): the XY part at a concrete arc with both offsets missing. -/
theorem C4_witness :
    arcToShape true 1 1 1 (0, 0, 1) none none none ⟨0, 0, 0⟩ =
      .error "I and J must be defined for XY arc" ∧
    to_edge (.arc true 1 1 1 (0, 0, 1) none none none) (.linear 0 0 0) =
      .error "I and J must be defined for XY arc" :=
  C4_missing_offset_error.1 true 1 1 1 none none none ⟨0, 0, 0⟩ (.linear 0 0 0) (Or.inl rfl)

/-- C5 (counterexample): with both required offsets present but zero
(`I0 J0`) and coincident start/end, the reconstructor does not return a full
circle — it fails constructing the circle normal direction from a null
vector. -/
theorem C5_counterexample :
    arcToShape true 0 0 0 (0, 0, 1) (some 0) (some 0) none ⟨0, 0, 0⟩ =
      .error "gp_Dir: null vector" := by
  unfold arcToShape finishArc
  norm_num [cross, mkDir, negV, distSq, tolSq]

/-- C5 (amended): for every arc record pair with coincident start/end, the
required in-plane offsets present and not both zero, and no out-of-plane
change, the reconstructor returns a full `Geom_Circle` (centered at start
plus offsets), never a zero-length arc. -/
theorem C5_full_circle_detection :
    (∀ (cw : Bool) (x y z a b : ℚ) (kk : Option ℚ), ¬(a = 0 ∧ b = 0) →
      ∃ n f, arcToShape cw x y z (0, 0, 1) (some a) (some b) kk ⟨x, y, z⟩ =
        .ok (.circle ⟨x + a, y + b, z⟩ (a ^ 2 + b ^ 2) n f, "yellow")) ∧
    (∀ (cw : Bool) (x y z a c : ℚ) (jj : Option ℚ), ¬(a = 0 ∧ c = 0) →
      ∃ n f, arcToShape cw x y z (0, 1, 0) (some a) jj (some c) ⟨x, y, z⟩ =
        .ok (.circle ⟨x + a, y, z + c⟩ (a ^ 2 + c ^ 2) n f, "yellow")) ∧
    (∀ (cw : Bool) (x y z b c : ℚ) (ii : Option ℚ), ¬(b = 0 ∧ c = 0) →
      ∃ n f, arcToShape cw x y z (1, 0, 0) ii (some b) (some c) ⟨x, y, z⟩ =
        .ok (.circle ⟨x, y + b, z + c⟩ (b ^ 2 + c ^ 2) n f, "yellow")) :=
  ⟨fullCircleXY, fullCircleXZ, fullCircleYZ⟩

/-- C5 (witness): full-circle detection at a concrete degenerate arc pair. -/
theorem C5_witness :
    ∃ n f, arcToShape true 1 2 3 (0, 0, 1) (some 0) (some 5) none ⟨1, 2, 3⟩ =
      .ok (.circle ⟨1 + 0, 2 + 5, 3⟩ ((0 : ℚ) ^ 2 + 5 ^ 2) n f, "yellow") :=
  C5_full_circle_detection.1 true 1 2 3 0 5 none (by norm_num)

/-- C6 (confirmed): `G2 X0 Y5 I0 J5` from `(0, 0, 0)` in the XY plane
reconstructs an arc centered at `(0, 5, 0)` whose squared radius is `25`,
i.e. radius `√25 = 5`, the magnitude of the offset vector. -/
theorem C6_arc_center_reconstruction :
    arcToShape true 0 5 0 (0, 0, 1) (some 0) (some 5) none ⟨0, 0, 0⟩ =
      .ok (.arcEdge ⟨0, 5, 0⟩ 25 ⟨0, 0, -25⟩ ⟨5, 0, 0⟩ ⟨0, 0, 0⟩ ⟨0, 5, 0⟩ true, "yellow") ∧
    Real.sqrt 25 = 5 := by
  constructor
  · unfold arcToShape finishArc
    norm_num [cross, mkDir, negV, distSq, tolSq]
  · rw [show (25 : ℝ) = 5 ^ 2 by norm_num]
    exact Real.sqrt_sq (by norm_num)

/-- C8 (counterexample): a linear pair whose endpoints differ by `1e-5`
(well within the claimed `1e-4` tolerance) is not suppressed — `to_edge`
draws a segment, because the suppression test is exact float equality, not a
tolerance comparison. -/
theorem C8_counterexample :
    to_edge (.linear (1 / 100000) 0 0) (.linear 0 0 0) =
      .ok (some (.segment ⟨0, 0, 0⟩ ⟨1 / 100000, 0, 0⟩, "yellow")) ∧
    distSq ⟨0, 0, 0⟩ ⟨1 / 100000, 0, 0⟩ ≤ tolSq ∧
    ¬ pEq (.linear 0 0 0) (.linear (1 / 100000) 0 0) := by
  refine ⟨?_, ?_, ?_⟩
  · simp [to_edge, startPt, VisualCommand.x, VisualCommand.y, VisualCommand.z]
    norm_num [pEq, VisualCommand.x, VisualCommand.y, VisualCommand.z]
  · norm_num [distSq, tolSq]
  · norm_num [pEq, VisualCommand.x, VisualCommand.y, VisualCommand.z]

/-- C8 (amended): the degenerate-segment suppression for linear and rapid
moves uses exact coordinate equality; only the reconstructor's final
circle-versus-arc coincidence decision uses the `1e-4` linear tolerance. -/
theorem C8_coincidence_tests :
    (∀ (x y z : ℚ) (s : VisualCommand),
      to_edge (.linear x y z) s = .ok none ↔ (s.x = x ∧ s.y = y ∧ s.z = z)) ∧
    (∀ (x y z : ℚ) (s : VisualCommand),
      to_edge (.rapid x y z) s = .ok none ↔ (s.x = x ∧ s.y = y ∧ s.z = z)) ∧
    (∀ (cw : Bool) (sx sy sz x y a b : ℚ) (kk : Option ℚ), ¬(a = 0 ∧ b = 0) →
      ((∃ c r n f, arcToShape cw x y sz (0, 0, 1) (some a) (some b) kk ⟨sx, sy, sz⟩ =
          .ok (.circle c r n f, "yellow")) ↔
        distSq ⟨sx, sy, sz⟩ ⟨x, y, sz⟩ ≤ tolSq)) :=
  ⟨linSuppressionExact, rapidSuppressionExact, arcToleranceXY⟩

/-- C8 (witness): the exact-equality suppression and the tolerance test at
concrete inputs. -/
theorem C8_witness :
    to_edge (.linear 0 0 0) (.linear 0 0 0) = .ok none ∧
    (∃ c r n f, arcToShape true 0 5 3 (0, 0, 1) (some 0) (some 5) none ⟨0, 5, 3⟩ =
      .ok (.circle c r n f, "yellow")) :=
  ⟨(C8_coincidence_tests.1 0 0 0 (.linear 0 0 0)).mpr ⟨rfl, rfl, rfl⟩,
    (C8_coincidence_tests.2.2 true 0 5 3 0 5 0 5 none (by norm_num)).mpr
      (by norm_num [distSq, tolSq])⟩

/-- The three canonical arc-plane values the tracker can hold: assigned at
initialization and by `G17`/`G18`/`G19`. -/
def planeOK (p : ℤ × ℤ × ℤ) : Prop :=
  p = (0, 0, 1) ∨ p = (0, 1, 0) ∨ p = (1, 0, 0)

/-- A record's arc plane (when it has one) is canonical. -/
def recPlaneOK : VisualCommand → Prop
  | .arc _ _ _ _ pl _ _ _ => planeOK pl
  | _ => True

/-- Reconstructing this record can never hit the `Unknown arc plane` branch. -/
def arcSafe : VisualCommand → Prop
  | .arc cw x y z pl i j k =>
    ∀ st : Pt3, arcToShape cw x y z pl i j k st ≠ .error "Unknown arc plane"
  | _ => True

/-- The only error the shared tail of `_to_shape` can produce is the null
`gp_Dir` construction failure. -/
theorem finishArcErrors (cw : Bool) (x y z : ℚ) (plane : ℤ × ℤ × ℤ) (cv : Vec3)
    (height : ℚ) (sc c : Pt3) (rsq : ℚ) (fc : Prop) [Decidable fc] (st : Pt3) (e : String)
    (h : finishArc cw x y z plane cv height sc c rsq fc st = .error e) :
    e = "gp_Dir: null vector" := by
  unfold finishArc mkDir at h
  split at h
  · exact absurd h (by simp)
  · repeat' split at h <;> simp_all

/-- On any canonical plane, `_to_shape` cannot reach its unknown-plane error
branch. -/
theorem arcToShapeNoUnknown {pl : ℤ × ℤ × ℤ} (hpl : planeOK pl) :
    ∀ (cw : Bool) (x y z : ℚ) (i j k : Option ℚ) (st : Pt3),
    arcToShape cw x y z pl i j k st ≠ .error "Unknown arc plane" := by
  rcases hpl with h | h | h <;> subst h <;> intro cw x y z i j k st <;> unfold arcToShape
  · rw [if_pos rfl]
    cases i with
    | none => intro h; simp at h
    | some iv =>
      cases j with
      | none => intro h; simp at h
      | some jv =>
        intro h
        exact absurd (finishArcErrors _ _ _ _ _ _ _ _ _ _ _ _ _ h) (by decide)
  · rw [if_neg (by decide), if_pos rfl]
    cases i with
    | none => intro h; simp at h
    | some iv =>
      cases k with
      | none => intro h; simp at h
      | some kv =>
        intro h
        exact absurd (finishArcErrors _ _ _ _ _ _ _ _ _ _ _ _ _ h) (by decide)
  · rw [if_neg (by decide), if_neg (by decide), if_pos rfl]
    cases j with
    | none => intro h; simp at h
    | some jv =>
      cases k with
      | none => intro h; simp at h
      | some kv =>
        intro h
        exact absurd (finishArcErrors _ _ _ _ _ _ _ _ _ _ _ _ _ h) (by decide)

/-- The tracker invariant: the carried arc plane and every emitted arc
record's plane are canonical. -/
def stInv (a : TrackerState × List VisualCommand) : Prop :=
  planeOK a.1.params.arc_plane ∧ ∀ v ∈ a.2, recPlaneOK v

/-- `add_command` always carries the combined params forward. -/
theorem add_command_snd (recs : List VisualCommand) (mk : TrackerParams → Option VisualCommand)
    (combined : TrackerParams) : (add_command recs mk combined).2 = combined := by
  unfold add_command
  cases mk combined <;> rfl

/-- Records in `add_command`'s output are old ones or the newly built one. -/
theorem add_command_mem (recs : List VisualCommand) (mk : TrackerParams → Option VisualCommand)
    (combined : TrackerParams) :
    ∀ v ∈ (add_command recs mk combined).1, v ∈ recs ∨ mk combined = some v := by
  intro v hv
  unfold add_command at hv
  cases hmk : mk combined with
  | none => rw [hmk] at hv; exact Or.inl hv
  | some w =>
    rw [hmk] at hv
    rcases List.mem_append.1 hv with h1 | h1
    · exact Or.inl h1
    · simp at h1
      subst h1
      exact Or.inr rfl

/-- A constructed rapid record trivially satisfies the plane predicate. -/
theorem mkRapid_rec (p : TrackerParams) (v : VisualCommand) (h : mkRapid p = some v) :
    recPlaneOK v := by
  unfold mkRapid at h
  cases hx : p.x <;> cases hy : p.y <;> cases hz : p.z <;> rw [hx, hy, hz] at h <;>
    simp at h
  subst h
  trivial

/-- A constructed linear record trivially satisfies the plane predicate. -/
theorem mkLinear_rec (p : TrackerParams) (v : VisualCommand) (h : mkLinear p = some v) :
    recPlaneOK v := by
  unfold mkLinear at h
  cases hx : p.x <;> cases hy : p.y <;> cases hz : p.z <;> rw [hx, hy, hz] at h <;>
    simp at h
  subst h
  trivial

/-- A constructed arc record inherits the carried plane. -/
theorem mkArc_rec (cw : Bool) (p : TrackerParams) (v : VisualCommand)
    (hpl : planeOK p.arc_plane) (h : mkArc cw p = some v) : recPlaneOK v := by
  unfold mkArc at h
  cases hx : p.x <;> cases hy : p.y <;> cases hz : p.z <;> rw [hx, hy, hz] at h <;>
    simp at h
  subst h
  exact hpl

/-- The canned-cycle retract params only overwrite the `z` key. -/
theorem cannedZParams_plane (cr : Bool) (cz : Option ℚ) (c c2 : TrackerParams)
    (h : cannedZParams cr cz c = .ok c2) : c2.arc_plane = c.arc_plane := by
  unfold cannedZParams at h
  split at h
  · split at h
    · exact absurd h (by simp)
    · simp only [Except.ok.injEq] at h; subst h; rfl
  · simp only [Except.ok.injEq] at h; subst h; rfl

/-- The `G81` branch preserves the tracker invariant. -/
theorem g81Step_inv (s : TrackerState) (recs : List VisualCommand)
    (combined : TrackerParams) (out : TrackerState × List VisualCommand)
    (hcpl : planeOK combined.arc_plane) (hr : ∀ v ∈ recs, recPlaneOK v)
    (hout : g81Step s recs combined = .ok out) : stInv out := by
  unfold g81Step at hout
  cases hcz : cannedRetZ s with
  | error e => rw [hcz] at hout; exact absurd hout (by simp [exceptBindErr])
  | ok cz =>
    rw [hcz] at hout
    simp only [exceptBindOk] at hout
    cases hc2 : cannedZParams s.canned_r cz combined with
    | error e => rw [hc2] at hout; exact absurd hout (by simp [exceptBindErr])
    | ok combined2 =>
      rw [hc2] at hout
      simp only [exceptBindOk, Except.ok.injEq] at hout
      subst hout
      constructor
      · simp only [add_command_snd]
        rw [cannedZParams_plane s.canned_r cz combined combined2 hc2]
        exact hcpl
      · intro v hv
        rcases add_command_mem _ mkLinear combined2 v hv with h1 | h1
        · rcases add_command_mem recs mkLinear combined v h1 with h2 | h2
          · exact hr v h2
          · exact mkLinear_rec combined v h2
        · exact mkLinear_rec combined2 v h1

/-- The mnemonic dispatch preserves the tracker invariant whenever the merged
params carry the state's arc plane (which `mergeParams` guarantees). -/
theorem dispatch_inv (s : TrackerState) (recs : List VisualCommand) (name : String)
    (combined : TrackerParams) (out : TrackerState × List VisualCommand)
    (hpl : combined.arc_plane = s.params.arc_plane)
    (hinv : stInv (s, recs)) (hout : dispatch s recs name combined = .ok out) :
    stInv out := by
  obtain ⟨hs, hr⟩ := hinv
  have hcpl : planeOK combined.arc_plane := by rw [hpl]; exact hs
  unfold dispatch at hout
  by_cases h0 : name = "G0"
  · rw [if_pos h0] at hout
    simp only [Except.ok.injEq] at hout
    subst hout
    refine ⟨by simpa [add_command_snd], ?_⟩
    intro v hv
    rcases add_command_mem recs mkRapid combined v hv with h1 | h1
    · exact hr v h1
    · exact mkRapid_rec combined v h1
  rw [if_neg h0] at hout
  by_cases h1 : name = "G1"
  · rw [if_pos h1] at hout
    simp only [Except.ok.injEq] at hout
    subst hout
    refine ⟨by simpa [add_command_snd], ?_⟩
    intro v hv
    rcases add_command_mem recs mkLinear combined v hv with h2 | h2
    · exact hr v h2
    · exact mkLinear_rec combined v h2
  rw [if_neg h1] at hout
  by_cases h2 : name = "G2"
  · rw [if_pos h2] at hout
    simp only [Except.ok.injEq] at hout
    subst hout
    refine ⟨by simpa [add_command_snd], ?_⟩
    intro v hv
    rcases add_command_mem recs (mkArc true) combined v hv with h3 | h3
    · exact hr v h3
    · exact mkArc_rec true combined v hcpl h3
  rw [if_neg h2] at hout
  by_cases h3 : name = "G3"
  · rw [if_pos h3] at hout
    simp only [Except.ok.injEq] at hout
    subst hout
    refine ⟨by simpa [add_command_snd], ?_⟩
    intro v hv
    rcases add_command_mem recs (mkArc false) combined v hv with h4 | h4
    · exact hr v h4
    · exact mkArc_rec false combined v hcpl h4
  rw [if_neg h3] at hout
  by_cases h4 : name = "G17"
  · rw [if_pos h4] at hout
    simp only [Except.ok.injEq] at hout
    subst hout
    exact ⟨Or.inl rfl, hr⟩
  rw [if_neg h4] at hout
  by_cases h5 : name = "G18"
  · rw [if_pos h5] at hout
    simp only [Except.ok.injEq] at hout
    subst hout
    exact ⟨Or.inr (Or.inl rfl), hr⟩
  rw [if_neg h5] at hout
  by_cases h6 : name = "G19"
  · rw [if_pos h6] at hout
    simp only [Except.ok.injEq] at hout
    subst hout
    exact ⟨Or.inr (Or.inr rfl), hr⟩
  rw [if_neg h6] at hout
  by_cases h7 : name = "G81"
  · rw [if_pos h7] at hout
    exact g81Step_inv s recs combined out hcpl hr hout
  rw [if_neg h7] at hout
  by_cases h8 : name = "G80"
  · rw [if_pos h8] at hout
    simp only [Except.ok.injEq] at hout
    subst hout
    exact ⟨hs, hr⟩
  rw [if_neg h8] at hout
  by_cases h9 : name = "G91"
  · rw [if_pos h9] at hout
    simp only [Except.ok.injEq] at hout
    subst hout
    exact ⟨hs, hr⟩
  rw [if_neg h9] at hout
  by_cases h10 : name = "G90"
  · rw [if_pos h10] at hout
    simp only [Except.ok.injEq] at hout
    subst hout
    exact ⟨hs, hr⟩
  rw [if_neg h10] at hout
  by_cases h11 : name = "G98"
  · rw [if_pos h11] at hout
    simp only [Except.ok.injEq] at hout
    subst hout
    exact ⟨hs, hr⟩
  rw [if_neg h11] at hout
  by_cases h12 : name = "G99"
  · rw [if_pos h12] at hout
    simp only [Except.ok.injEq] at hout
    subst hout
    exact ⟨hs, hr⟩
  rw [if_neg h12] at hout
  simp only [Except.ok.injEq] at hout
  subst hout
  exact ⟨hs, hr⟩

/-- One loop iteration preserves the tracker invariant. -/
theorem trackStep_inv (acc out : TrackerState × List VisualCommand) (c : Command)
    (hinv : stInv acc) (hstep : trackStep acc c = .ok out) : stInv out := by
  unfold trackStep at hstep
  cases hcv : (if acc.1.relative then convRel acc.1.params c.params
      else Except.ok c.params) with
  | error e => rw [hcv] at hstep; exact absurd hstep (by simp [exceptBindErr])
  | ok new =>
    rw [hcv] at hstep
    simp only [exceptBindOk] at hstep
    exact dispatch_inv acc.1 acc.2 c.name (mergeParams acc.1.params new) out rfl
      (by obtain ⟨a, b⟩ := acc; exact hinv) hstep

/-- The whole command loop preserves the tracker invariant. -/
theorem runCmds_inv : ∀ (cmds : List Command) (acc out : TrackerState × List VisualCommand),
    stInv acc → runCmds acc cmds = .ok out → stInv out := by
  intro cmds
  induction cmds with
  | nil =>
    intro acc out h hout
    simp only [runCmds, Except.ok.injEq] at hout
    subst hout
    exact h
  | cons c cs ih =>
    intro acc out h hout
    simp only [runCmds] at hout
    cases hstep : trackStep acc c with
    | error e => rw [hstep] at hout; exact absurd hout (by simp [exceptBindErr])
    | ok acc2 =>
      rw [hstep] at hout
      simp only [exceptBindOk] at hout
      exact ih acc2 out (trackStep_inv acc acc2 c h hstep) hout

/-- C9 (confirmed): from the initial state, the tracker's carried arc plane
is always one of the three canonical values `(0,0,1)`, `(0,1,0)`, `(1,0,0)`
(initialized to `(0,0,1)`, reassigned only by `G17`/`G18`/`G19`), every arc
record it emits carries such a plane, and consequently the reconstructor's
`Unknown arc plane` error branch is unreachable for tracker-produced
records. -/
theorem C9_arc_plane_invariant :
    ∀ (cmds : List Command) (s : TrackerState) (recs : List VisualCommand),
      runCmds (initState, []) cmds = .ok (s, recs) →
      planeOK s.params.arc_plane ∧ ∀ v ∈ recs, recPlaneOK v ∧ arcSafe v := by
  intro cmds s recs h
  have hinv : stInv (s, recs) :=
    runCmds_inv cmds (initState, []) (s, recs) ⟨Or.inl rfl, by simp⟩ h
  refine ⟨hinv.1, ?_⟩
  intro v hv
  refine ⟨hinv.2 v hv, ?_⟩
  have hpl := hinv.2 v hv
  cases v with
  | linear x y z => trivial
  | rapid x y z => trivial
  | arc cw x y z pl i j k =>
    intro st
    exact arcToShapeNoUnknown hpl cw x y z i j k st

/-- C9 (witness): the invariant after one concrete `G2` command. -/
theorem C9_witness :
    planeOK ((0, 0, 1) : ℤ × ℤ × ℤ) ∧
    ∀ v ∈ [VisualCommand.arc true 1 0 0 (0, 0, 1) (some 1) (some 1) none],
      recPlaneOK v ∧ arcSafe v :=
  C9_arc_plane_invariant
    [⟨"G2", { x := some 1, y := some 0, z := some 0, i := some 1, j := some 1 }⟩]
    ⟨⟨some 1, some 0, some 0, some 1, some 1, none, none, (0, 0, 1)⟩, false, false, false, none⟩
    [VisualCommand.arc true 1 0 0 (0, 0, 1) (some 1) (some 1) none] rfl

/-- C10 (counterexample): a `G81` motion command arriving before any Z has
been supplied does not have its failure caught and swallowed — in G98 mode
the pre-cycle Z capture `params["z"]` raises an uncaught `KeyError` that
aborts the whole run. -/
theorem C10_counterexample :
    generate_visual_commands
      [⟨"G81", { x := some 2, y := some (-2), z := some (-2), r := some 3 }⟩] =
    .error "KeyError" := by decide

/-- C10 (amended): for the plain motion commands `G0`/`G1`/`G2`/`G3` the
claim holds: in absolute mode, a command arriving while the carried dict has
no `z` (and itself supplying none) fails record construction with a
`TypeError` that is caught and swallowed — no record is emitted — while the
command's merged parameters still become the carried-forward state; a `G81`
in G98 retract mode instead crashes the run (see the counterexample). -/
theorem C10_missing_z_swallowed : ∀ (c : Command) (s : TrackerState)
    (recs : List VisualCommand),
    (c.name = "G0" ∨ c.name = "G1" ∨ c.name = "G2" ∨ c.name = "G3") →
    s.relative = false → c.params.z = none → s.params.z = none →
    trackStep (s, recs) c = .ok ({ s with params := mergeParams s.params c.params }, recs) ∧
    (mergeParams s.params c.params).z = none := by
  intro c s recs hname hrel hcz hsz
  have hz : (mergeParams s.params c.params).z = none := by
    simp [mergeParams, mergeField, hcz, hsz]
  refine ⟨?_, hz⟩
  unfold trackStep
  rw [hrel]
  simp only [Bool.false_eq_true, if_false, exceptBindOk]
  have hlin : mkLinear (mergeParams s.params c.params) = none := by
    unfold mkLinear
    rw [hz]
    cases (mergeParams s.params c.params).x <;> cases (mergeParams s.params c.params).y <;> simp
  have hrap : mkRapid (mergeParams s.params c.params) = none := by
    unfold mkRapid
    rw [hz]
    cases (mergeParams s.params c.params).x <;> cases (mergeParams s.params c.params).y <;> simp
  have harc : ∀ cw, mkArc cw (mergeParams s.params c.params) = none := by
    intro cw
    unfold mkArc
    rw [hz]
    cases (mergeParams s.params c.params).x <;> cases (mergeParams s.params c.params).y <;> simp
  rcases hname with h | h | h | h <;> rw [h] <;> unfold dispatch <;>
    simp [add_command, hlin, hrap, harc, hrel]

/-- C10 (witness): a concrete `G1 X5` from the initial (z-less) state is
dropped but its parameters are carried forward. -/
theorem C10_witness :
    trackStep (initState, []) ⟨"G1", { x := some 5 }⟩ =
      .ok ({ initState with
              params := mergeParams initState.params { x := some 5 } }, []) ∧
    (mergeParams initState.params { x := some 5 }).z = none :=
  C10_missing_z_swallowed ⟨"G1", { x := some 5 }⟩ initState []
    (Or.inr (Or.inl rfl)) rfl rfl rfl

/-- An abstract motion: a mnemonic, an absolute target position and optional
arc offsets, used to compare a relative-mode encoding of a path with its
absolute-mode encoding. -/
structure Move where
  name : String
  tx : ℚ
  ty : ℚ
  tz : ℚ
  i : Option ℚ := none
  j : Option ℚ := none
  k : Option ℚ := none
  r : Option ℚ := none
deriving DecidableEq, Repr

/-- The four plain motion mnemonics. -/
def isMotion (n : String) : Prop :=
  n = "G0" ∨ n = "G1" ∨ n = "G2" ∨ n = "G3"

/-- The `G90` (absolute) encoding of a move: parameters are the targets. -/
def absCmd (m : Move) : Command :=
  ⟨m.name, ⟨some m.tx, some m.ty, some m.tz, m.i, m.j, m.k, m.r⟩⟩

/-- The `G91` (relative) encoding of a move from a previous position:
`x`/`y`/`z` carry deltas, while `i`/`j`/`k`/`r` are identical to the absolute
encoding (offsets are relative-to-start by convention in both modes). -/
def relCmd (px py pz : ℚ) (m : Move) : Command :=
  ⟨m.name, ⟨some (m.tx - px), some (m.ty - py), some (m.tz - pz), m.i, m.j, m.k, m.r⟩⟩

/-- The relative-mode encoding of a whole path, threading the previous
target through. -/
def relStream (px py pz : ℚ) : List Move → List Command
  | [] => []
  | m :: rest => relCmd px py pz m :: relStream m.tx m.ty m.tz rest

/-- The record constructor the dispatch selects for each motion mnemonic. -/
def mkFor (name : String) : TrackerParams → Option VisualCommand :=
  if name = "G0" then mkRapid
  else if name = "G1" then mkLinear
  else if name = "G2" then mkArc true
  else mkArc false

/-- Relative conversion when the command carries all of `x`, `y`, `z` and
the carried dict has a full previous position: the deltas are added and the
offsets pass through untouched. -/
theorem convRel_full (P : TrackerParams) (px py pz a b d : ℚ) (i j k r : Option ℚ)
    (hx : P.x = some px) (hy : P.y = some py) (hz : P.z = some pz) :
    convRel P ⟨some a, some b, some d, i, j, k, r⟩ =
      .ok ⟨some (a + px), some (b + py), some (d + pz), i, j, k, r⟩ := by
  unfold convRel convAttr
  rw [hx, hy, hz]
  rfl

/-- On a motion mnemonic the dispatch reduces to `add_command`. -/
theorem dispatch_motion (name : String) (hname : isMotion name) (s : TrackerState)
    (recs : List VisualCommand) (combined : TrackerParams) :
    dispatch s recs name combined =
      .ok ({ s with params := (add_command recs (mkFor name) combined).2 },
        (add_command recs (mkFor name) combined).1) := by
  rcases hname with h | h | h | h <;> subst h <;> unfold dispatch mkFor
  · rw [if_pos rfl, if_pos rfl]
  · rw [if_neg (by decide), if_pos rfl, if_neg (by decide), if_pos rfl]
  · rw [if_neg (by decide), if_neg (by decide), if_pos rfl,
      if_neg (by decide), if_neg (by decide), if_pos rfl]
  · rw [if_neg (by decide), if_neg (by decide), if_neg (by decide), if_pos rfl,
      if_neg (by decide), if_neg (by decide), if_neg (by decide)]

/-- Delta plus previous position recovers the absolute target. -/
theorem subAddCancel (a b : ℚ) : a - b + b = a := by ring

/-- One relative-mode step on a delta-encoded motion command lands in the
same params and records as the absolute step (modulo the `relative` flag). -/
theorem trackStep_motion_rel (P : TrackerParams) (cn cr : Bool) (cz : Option ℚ)
    (recs : List VisualCommand) (px py pz : ℚ) (m : Move) (hm : isMotion m.name)
    (hx : P.x = some px) (hy : P.y = some py) (hz : P.z = some pz) :
    trackStep (⟨P, true, cn, cr, cz⟩, recs) (relCmd px py pz m) =
      .ok (⟨mergeParams P (absCmd m).params, true, cn, cr, cz⟩,
        (add_command recs (mkFor m.name) (mergeParams P (absCmd m).params)).1) := by
  unfold trackStep
  rw [if_pos (show (⟨P, true, cn, cr, cz⟩ : TrackerState).relative = true from rfl)]
  show (convRel P (relCmd px py pz m).params) >>= _ = _
  rw [show (relCmd px py pz m).params =
    ⟨some (m.tx - px), some (m.ty - py), some (m.tz - pz), m.i, m.j, m.k, m.r⟩ from rfl]
  rw [convRel_full P px py pz (m.tx - px) (m.ty - py) (m.tz - pz) m.i m.j m.k m.r hx hy hz]
  rw [exceptBindOk]
  rw [subAddCancel, subAddCancel, subAddCancel]
  rw [show (⟨some m.tx, some m.ty, some m.tz, m.i, m.j, m.k, m.r⟩ : CParams) =
    (absCmd m).params from rfl]
  show dispatch ⟨P, true, cn, cr, cz⟩ recs m.name (mergeParams P (absCmd m).params) = _
  rw [dispatch_motion m.name hm ⟨P, true, cn, cr, cz⟩ recs (mergeParams P (absCmd m).params)]
  rw [add_command_snd]

/-- One absolute-mode step on a motion command. -/
theorem trackStep_motion_abs (P : TrackerParams) (cn cr : Bool) (cz : Option ℚ)
    (recs : List VisualCommand) (m : Move) (hm : isMotion m.name) :
    trackStep (⟨P, false, cn, cr, cz⟩, recs) (absCmd m) =
      .ok (⟨mergeParams P (absCmd m).params, false, cn, cr, cz⟩,
        (add_command recs (mkFor m.name) (mergeParams P (absCmd m).params)).1) := by
  unfold trackStep
  rw [if_neg (show ¬((⟨P, false, cn, cr, cz⟩ : TrackerState).relative = true) from by simp)]
  rw [exceptBindOk]
  show dispatch ⟨P, false, cn, cr, cz⟩ recs m.name (mergeParams P (absCmd m).params) = _
  rw [dispatch_motion m.name hm ⟨P, false, cn, cr, cz⟩ recs (mergeParams P (absCmd m).params)]
  rw [add_command_snd]

/-- The tracker in relative mode on the delta-encoded stream produces
exactly the states and records of the absolute run, with only the
`relative` flag differing. -/
theorem relAbsLockstep : ∀ (L : List Move) (px py pz : ℚ) (P : TrackerParams)
    (cn cr : Bool) (cz : Option ℚ) (recs : List VisualCommand),
    P.x = some px → P.y = some py → P.z = some pz →
    (∀ m ∈ L, isMotion m.name) →
    runCmds (⟨P, true, cn, cr, cz⟩, recs) (relStream px py pz L) =
      (runCmds (⟨P, false, cn, cr, cz⟩, recs) (L.map absCmd)).map
        (fun a => ({ a.1 with relative := true }, a.2)) := by
  intro L
  induction L with
  | nil =>
    intro px py pz P cn cr cz recs hx hy hz hm
    rfl
  | cons m rest ih =>
    intro px py pz P cn cr cz recs hx hy hz hm
    have hmm : isMotion m.name := hm m (List.mem_cons_self _ _)
    have hrest : ∀ m2 ∈ rest, isMotion m2.name := fun m2 h2 => hm m2 (List.mem_cons_of_mem _ h2)
    simp only [relStream, List.map, runCmds]
    rw [trackStep_motion_rel P cn cr cz recs px py pz m hmm hx hy hz,
      trackStep_motion_abs P cn cr cz recs m hmm]
    rw [exceptBindOk, exceptBindOk]
    exact ih m.tx m.ty m.tz (mergeParams P (absCmd m).params) cn cr cz _ rfl rfl rfl hrest

/-- C7 (confirmed): a command stream processed entirely in `G91` mode that
delta-encodes the same physical path as a `G90` stream yields the same
record sequence, hence the same curves (same edge buckets); and the
relative conversion touches only `x`, `y`, `z` — `i`/`j`/`k` (and `r`)
offsets are never converted. -/
theorem C7_rel_abs_equivalence :
    (∀ (px py pz : ℚ) (L : List Move), (∀ m ∈ L, isMotion m.name) →
      trackFrom (initStateAt px py pz) (⟨"G91", noParams⟩ :: relStream px py pz L) =
        trackFrom (initStateAt px py pz) (⟨"G90", noParams⟩ :: L.map absCmd) ∧
      (trackFrom (initStateAt px py pz) (⟨"G91", noParams⟩ :: relStream px py pz L) >>=
          visual_commands_to_edges) =
        (trackFrom (initStateAt px py pz) (⟨"G90", noParams⟩ :: L.map absCmd) >>=
          visual_commands_to_edges)) ∧
    (∀ (P : TrackerParams) (n res : CParams), convRel P n = .ok res →
      res.i = n.i ∧ res.j = n.j ∧ res.k = n.k ∧ res.r = n.r) := by
  constructor
  · intro px py pz L hm
    have hg91 : trackStep ((initStateAt px py pz), ([] : List VisualCommand)) ⟨"G91", noParams⟩ =
        .ok (⟨(initStateAt px py pz).params, true, false, false, none⟩, []) := rfl
    have hg90 : trackStep ((initStateAt px py pz), ([] : List VisualCommand)) ⟨"G90", noParams⟩ =
        .ok (⟨(initStateAt px py pz).params, false, false, false, none⟩, []) := rfl
    have h1 : trackFrom (initStateAt px py pz) (⟨"G91", noParams⟩ :: relStream px py pz L) =
        trackFrom (initStateAt px py pz) (⟨"G90", noParams⟩ :: L.map absCmd) := by
      unfold trackFrom
      simp only [runCmds]
      rw [hg91, hg90, exceptBindOk, exceptBindOk]
      rw [relAbsLockstep L px py pz (initStateAt px py pz).params false false none [] rfl rfl
        rfl hm]
      cases hres : runCmds (⟨(initStateAt px py pz).params, false, false, false, none⟩,
          ([] : List VisualCommand)) (L.map absCmd) with
      | error e => simp [Except.map]
      | ok a => simp [Except.map]
    exact ⟨h1, by rw [h1]⟩
  · intro P n res h
    unfold convRel at h
    cases h1 : convAttr P.x n.x with
    | error e => rw [h1] at h; exact absurd h (by simp [exceptBindErr])
    | ok nx =>
      rw [h1] at h
      simp only [exceptBindOk] at h
      cases h2 : convAttr P.y n.y with
      | error e => rw [h2] at h; exact absurd h (by simp [exceptBindErr])
      | ok ny =>
        rw [h2] at h
        simp only [exceptBindOk] at h
        cases h3 : convAttr P.z n.z with
        | error e => rw [h3] at h; exact absurd h (by simp [exceptBindErr])
        | ok nz =>
          rw [h3] at h
          simp only [exceptBindOk, Except.ok.injEq] at h
          subst h
          exact ⟨rfl, rfl, rfl, rfl⟩

/-- C7 (witness): the equivalence at a concrete one-move path from
`(0, 0, 5)`, and offset preservation at concrete parameters. -/
theorem C7_witness :
    trackFrom (initStateAt 0 0 5)
        [⟨"G91", noParams⟩, relCmd 0 0 5 ⟨"G1", 1, 2, 3, none, none, none, none⟩] =
      trackFrom (initStateAt 0 0 5)
        [⟨"G90", noParams⟩, absCmd ⟨"G1", 1, 2, 3, none, none, none, none⟩] ∧
    ((⟨some (1 + 0), some (2 + 0), some (3 + 5), some 4, some 5, some 6, some 7⟩ : CParams).i =
        (⟨some 1, some 2, some 3, some 4, some 5, some 6, some 7⟩ : CParams).i ∧
      (⟨some (1 + 0), some (2 + 0), some (3 + 5), some 4, some 5, some 6, some 7⟩ : CParams).j =
        (⟨some 1, some 2, some 3, some 4, some 5, some 6, some 7⟩ : CParams).j ∧
      (⟨some (1 + 0), some (2 + 0), some (3 + 5), some 4, some 5, some 6, some 7⟩ : CParams).k =
        (⟨some 1, some 2, some 3, some 4, some 5, some 6, some 7⟩ : CParams).k ∧
      (⟨some (1 + 0), some (2 + 0), some (3 + 5), some 4, some 5, some 6, some 7⟩ : CParams).r =
        (⟨some 1, some 2, some 3, some 4, some 5, some 6, some 7⟩ : CParams).r) :=
  ⟨(C7_rel_abs_equivalence.1 0 0 5 [⟨"G1", 1, 2, 3, none, none, none, none⟩]
      (by intro m hm; rw [List.mem_singleton] at hm; subst hm; exact Or.inr (Or.inl rfl))).1,
    C7_rel_abs_equivalence.2 ⟨some 0, some 0, some 5, none, none, none, none, (0, 0, 1)⟩
      ⟨some 1, some 2, some 3, some 4, some 5, some 6, some 7⟩
      ⟨some (1 + 0), some (2 + 0), some (3 + 5), some 4, some 5, some 6, some 7⟩ rfl⟩
